import Mathlib

/-!
Verification development for the grepai indexing and retrieval engine.

The repository ships the tests, the CLI/TUI layer, the trace workspace
loader (`trace/workspace.go`) and the local RPG snapshot store
(`rpg.GOBRPGStore`) as source; the indexer pipeline, the watch
supervisor, the vector/symbol stores and the search layer are consumed
through their interfaces only.  Where the deciding code is present we
embed it directly; where it is absent we model it from the
specification (each such definition's doc comment starts with
`Modelled from the spec:`).
-/

/-! ## Data model (spec section 3) -/

/-- Per-file scanner output (`indexer.FileInfo` in the source): relative
path, content hash and modification time (seconds). -/
structure FileRecord where
  path : String
  hash : String
  modTime : Int
deriving DecidableEq, Repr

/-- Per-file metadata persisted by the vector store (`store.Document`):
path, content hash, modification time and the IDs of the chunks covering
the file. -/
structure Document where
  path : String
  hash : String
  modTime : Int
  chunkIds : List String
deriving DecidableEq, Repr

/-- A persisted chunk (`store.Chunk`): deterministic ID, file path, line
range, content, embedding vector and content hash.  Vector components
are modelled as integers (exact arithmetic in place of `float32`). -/
structure Chunk where
  id : String
  filePath : String
  startLine : Nat
  endLine : Nat
  content : String
  vector : List Int
  hash : String
deriving DecidableEq, Repr

/-- An extracted symbol (`trace.Symbol`). -/
structure TraceSymbol where
  name : String
  kind : String
  file : String
  line : Nat
  language : String
deriving DecidableEq, Repr

/-- An extracted reference (`trace.Reference`): `symbolName` is the
callee's name; `file`/`line` locate the call site; `callerName` /
`callerFile` / `callerLine` identify the enclosing caller. -/
structure Reference where
  symbolName : String
  file : String
  line : Nat
  callerName : String
  callerFile : String
  callerLine : Nat
deriving DecidableEq, Repr

/-- Per-file bucket owned by the symbol store (spec `FileSymbolBucket`):
the file's path, the content hash it was extracted from, and its
symbols and references. -/
structure FileSymbolBucket where
  path : String
  hash : String
  symbols : List TraceSymbol
  references : List Reference
deriving DecidableEq, Repr

/-- In-memory state of the vector store: the chunk table and the
document table (association by `filePath` / `path`). -/
structure VectorStoreState where
  chunks : List Chunk
  documents : List Document
deriving DecidableEq, Repr

/-- In-memory state of the symbol store: the per-file buckets. -/
structure SymbolStoreState where
  buckets : List FileSymbolBucket
deriving DecidableEq, Repr

/-- Look up the stored document for a path (`store.GetDocument`;
returns `none` when the path has no document). -/
def getDocument (s : VectorStoreState) (p : String) : Option Document :=
  s.documents.find? (fun d => d.path == p)

/-- All chunks stored for a file (`store.GetChunksForFile`). -/
def getChunksForFile (s : VectorStoreState) (p : String) : List Chunk :=
  s.chunks.filter (fun c => c.filePath == p)

/-- Whether the symbol store has a bucket for the path
(`trace.SymbolStore.IsFileIndexed`). -/
def isFileIndexed (s : SymbolStoreState) (p : String) : Bool :=
  s.buckets.any (fun b => b.path == p)

/-! ## Indexer skip gates (spec section 4.5) -/

/-- Decision the indexer takes for one scanned file. -/
inductive GateDecision where
  | skippedByTime
  | skippedByHash
  | enqueued
deriving DecidableEq, Repr

/-- Modelled from the spec: the per-file skip gates of
`indexer.IndexAllWithProgress` / `HandleEvent` (indexer source absent
from the repository snapshot).  Gate A (time): if `lastIndexTime` is
set, the file's `modTime` is strictly older, and a stored document with
non-empty `chunkIds` exists, skip by time.  Gate B (hash): otherwise,
if the stored document's hash equals the newly computed one, skip by
hash.  Else enqueue. -/
def skipGate (lastIndexTime : Option Int) (doc : Option Document)
    (rec : FileRecord) : GateDecision :=
  match lastIndexTime, doc with
  | some t, some d =>
    if rec.modTime < t ∧ d.chunkIds ≠ [] then .skippedByTime
    else if d.hash == rec.hash then .skippedByHash
    else .enqueued
  | none, some d =>
    if d.hash == rec.hash then .skippedByHash else .enqueued
  | _, none => .enqueued

/-- Running totals reported by a full indexing pass (`indexer.Stats`). -/
structure Stats where
  filesIndexed : Nat
  filesSkipped : Nat
  chunksCreated : Nat
deriving DecidableEq, Repr

/-- Result of a full indexing pass together with the number of embedder
invocations it performed. -/
structure IndexPassResult where
  stats : Stats
  embedCalls : Nat
  embedBatchCalls : Nat
deriving DecidableEq, Repr

/-- Modelled from the spec: `IndexAllWithProgress` (indexer source
absent).  Every scanned record passes through the skip gates; skipped
files only bump `filesSkipped`; enqueued files are chunked and embedded
via `EmbedBatch` (one batch window per enqueued file in this model) and
bump `filesIndexed`.  The embedder is never invoked for skipped
files. -/
def indexAllWithProgress (lastIndexTime : Option Int)
    (docs : List Document) (records : List FileRecord) : IndexPassResult :=
  let decisions := records.map (fun r =>
    skipGate lastIndexTime (docs.find? (fun d => d.path == r.path)) r)
  let enq := decisions.countP (fun d => d == .enqueued)
  let skip := decisions.countP (fun d => d != .enqueued)
  { stats := { filesIndexed := enq, filesSkipped := skip, chunksCreated := enq }
    embedCalls := 0
    embedBatchCalls := enq }

/-- C1: in a full indexing pass, the time gate fires only when
`lastIndexTime` is set, the file's `modTime` is strictly older than it,
and a stored document with non-empty `chunkIds` exists; and a pass over
at least 200 records all meeting these conditions indexes nothing,
skips them all and never calls the embedder. -/
theorem C1_time_gate_skip
    (lit : Option Int) (doc : Option Document) (rec : FileRecord)
    (t0 : Int) (docs : List Document) (records : List FileRecord)
    (h200 : 200 ≤ records.length)
    (hall : ∀ r ∈ records, r.modTime < t0 ∧
      ∃ d, docs.find? (fun d => d.path == r.path) = some d ∧ d.chunkIds ≠ []) :
    (skipGate lit doc rec = .skippedByTime →
      ∃ t, lit = some t ∧ rec.modTime < t ∧
        ∃ d, doc = some d ∧ d.chunkIds ≠ []) ∧
    ((indexAllWithProgress (some t0) docs records).stats.filesIndexed = 0 ∧
      200 ≤ (indexAllWithProgress (some t0) docs records).stats.filesSkipped ∧
      (indexAllWithProgress (some t0) docs records).embedCalls = 0 ∧
      (indexAllWithProgress (some t0) docs records).embedBatchCalls = 0) := by
  constructor
  · intro h
    match lit, doc with
    | some t, some d =>
      refine ⟨t, rfl, ?_⟩
      by_cases hc : rec.modTime < t ∧ d.chunkIds ≠ []
      · exact ⟨hc.1, d, rfl, hc.2⟩
      · simp only [skipGate, if_neg hc] at h
        split at h <;> simp_all
    | some t, none => simp [skipGate] at h
    | none, some d =>
      simp only [skipGate] at h
      split at h <;> simp_all
    | none, none => simp [skipGate] at h
  · have hdec : ∀ r ∈ records,
        skipGate (some t0) (docs.find? (fun d => d.path == r.path)) r
          = .skippedByTime := by
      intro r hr
      obtain ⟨hlt, d, hfind, hne⟩ := hall r hr
      simp [skipGate, hfind, hlt, hne]
    have henq : (records.map (fun r =>
        skipGate (some t0) (docs.find? (fun d => d.path == r.path)) r)).countP
          (fun d => d == GateDecision.enqueued) = 0 := by
      rw [List.countP_eq_zero]
      intro a ha
      obtain ⟨r, hr, rfl⟩ := List.mem_map.mp ha
      rw [hdec r hr]
      decide
    have hskip : (records.map (fun r =>
        skipGate (some t0) (docs.find? (fun d => d.path == r.path)) r)).countP
          (fun d => d != GateDecision.enqueued) = records.length := by
      rw [← List.length_map (f := fun r =>
        skipGate (some t0) (docs.find? (fun d => d.path == r.path)) r)]
      rw [List.countP_eq_length]
      intro a ha
      obtain ⟨r, hr, rfl⟩ := List.mem_map.mp ha
      rw [hdec r hr]
      decide
    refine ⟨?_, ?_, rfl, ?_⟩
    · simpa [indexAllWithProgress] using henq
    · simpa [indexAllWithProgress, hskip] using h200
    · simpa [indexAllWithProgress] using henq

/-- Witness for C1 at a concrete input: 200 identical records, each
with a seeded document carrying `chunkIds = ["c1"]` and a
`lastIndexTime` in their future. -/
theorem C1_time_gate_skip_witness :
    (skipGate (some 10) (some ⟨"f", "h", 0, ["c1"]⟩) ⟨"f", "h", 0⟩
        = .skippedByTime →
      ∃ t, (some (10:Int)) = some t ∧ (0:Int) < t ∧
        ∃ d, some (⟨"f", "h", 0, ["c1"]⟩ : Document) = some d ∧
          d.chunkIds ≠ []) ∧
    ((indexAllWithProgress (some 10) [⟨"f", "seeded", 0, ["c1"]⟩]
        (List.replicate 200 ⟨"f", "h", 0⟩)).stats.filesIndexed = 0 ∧
      200 ≤ (indexAllWithProgress (some 10) [⟨"f", "seeded", 0, ["c1"]⟩]
        (List.replicate 200 ⟨"f", "h", 0⟩)).stats.filesSkipped ∧
      (indexAllWithProgress (some 10) [⟨"f", "seeded", 0, ["c1"]⟩]
        (List.replicate 200 ⟨"f", "h", 0⟩)).embedCalls = 0 ∧
      (indexAllWithProgress (some 10) [⟨"f", "seeded", 0, ["c1"]⟩]
        (List.replicate 200 ⟨"f", "h", 0⟩)).embedBatchCalls = 0) := by
  have hrec : ∀ r ∈ List.replicate 200 (⟨"f", "h", 0⟩ : FileRecord),
      r.modTime < 10 ∧
      ∃ d, ([⟨"f", "seeded", 0, ["c1"]⟩] : List Document).find?
          (fun d => d.path == r.path) = some d ∧ d.chunkIds ≠ [] := by
    intro r hr
    rw [List.eq_of_mem_replicate hr]
    exact ⟨by decide, ⟨"f", "seeded", 0, ["c1"]⟩, by decide, by decide⟩
  exact C1_time_gate_skip (some 10) (some ⟨"f", "h", 0, ["c1"]⟩) ⟨"f", "h", 0⟩
    10 [⟨"f", "seeded", 0, ["c1"]⟩] (List.replicate 200 ⟨"f", "h", 0⟩)
    (by rw [List.length_replicate]) hrec

/-! ## Watch-session event handling (spec sections 4.5-4.6) -/

/-- Normalized watcher event types (`watcher.EventType`). -/
inductive FileEventType where
  | create
  | modify
  | delete
  | rename
deriving DecidableEq, Repr

/-- A normalized watcher event (`watcher.FileEvent`). -/
structure FileEvent where
  type : FileEventType
  path : String
deriving DecidableEq, Repr

/-- Remove every chunk of a file (`store.DeleteByFile`). -/
def deleteByFile (s : VectorStoreState) (p : String) : VectorStoreState :=
  { s with chunks := s.chunks.filter (fun c => c.filePath != p) }

/-- Remove a file's document (`store.DeleteDocument`). -/
def deleteDocument (s : VectorStoreState) (p : String) : VectorStoreState :=
  { s with documents := s.documents.filter (fun d => d.path != p) }

/-- Append newly embedded chunks (`store.SaveChunks`). -/
def saveChunks (s : VectorStoreState) (cs : List Chunk) : VectorStoreState :=
  { s with chunks := s.chunks ++ cs }

/-- Upsert a file's document (`store.SaveDocument`). -/
def saveDocument (s : VectorStoreState) (d : Document) : VectorStoreState :=
  { s with documents := d :: s.documents.filter (fun e => e.path != d.path) }

/-- Remove a file's symbol bucket (`trace.SymbolStore.DeleteFileSymbols`). -/
def deleteFileSymbols (s : SymbolStoreState) (p : String) : SymbolStoreState :=
  { buckets := s.buckets.filter (fun b => b.path != p) }

/-- Modelled from the spec: `SaveFileWithContentHash` of the symbol
store (source absent) — a no-op when the stored bucket's hash matches,
otherwise a per-file replace of the bucket. -/
def saveFileWithContentHash (s : SymbolStoreState) (p h : String)
    (syms : List TraceSymbol) (refs : List Reference) : SymbolStoreState :=
  match s.buckets.find? (fun b => b.path == p) with
  | some b =>
    if b.hash == h then s
    else { buckets := ⟨p, h, syms, refs⟩ :: s.buckets.filter (fun b => b.path != p) }
  | none => { buckets := ⟨p, h, syms, refs⟩ :: s.buckets.filter (fun b => b.path != p) }

/-- Combined state a watch session threads through event handling: the
two stores, the recorded `lastIndexTime`, and the embedder call
counters. -/
structure SessionIndexState where
  store : VectorStoreState
  symbols : SymbolStoreState
  lastIndexTime : Option Int
  embedCalls : Nat
  embedBatchCalls : Nat
deriving DecidableEq, Repr

/-- Modelled from the spec: `handleFileEvent` / `Indexer.HandleEvent`
(source absent).  `delete` (and the old-path side of `rename`) runs
`DeleteByFile` + `DeleteDocument` + `DeleteFileSymbols`; `create`,
`modify` and the new side of `rename` run the skip gates on the single
file, and only an enqueued file is embedded (`EmbedBatch`), has its
chunks atomically replaced (`DeleteByFile; SaveChunks; SaveDocument`),
its symbols saved, and the recorded `lastIndexTime` advanced to `now`.
`rec` is the scanner's record for the event path; `newChunks`, `syms`
and `refs` are the chunker's and extractor's outputs for it. -/
def handleFileEvent (st : SessionIndexState) (ev : FileEvent)
    (rec : FileRecord) (newChunks : List Chunk)
    (syms : List TraceSymbol) (refs : List Reference)
    (now : Int) : SessionIndexState :=
  match ev.type with
  | .delete =>
    { st with
      store := deleteDocument (deleteByFile st.store ev.path) ev.path
      symbols := deleteFileSymbols st.symbols ev.path }
  | _ =>
    match skipGate st.lastIndexTime (getDocument st.store rec.path) rec with
    | .enqueued =>
      { store := saveDocument (saveChunks (deleteByFile st.store rec.path) newChunks)
          ⟨rec.path, rec.hash, rec.modTime, newChunks.map (fun c => c.id)⟩
        symbols := saveFileWithContentHash st.symbols rec.path rec.hash syms refs
        lastIndexTime := some now
        embedCalls := st.embedCalls
        embedBatchCalls := st.embedBatchCalls + 1 }
    | _ => st

/-- The skip gates never enqueue a file whose stored document hash
equals the newly computed one. -/
theorem skipGate_hash_eq_not_enqueued (lit : Option Int) (d : Document)
    (rec : FileRecord) (hh : d.hash = rec.hash) :
    skipGate lit (some d) rec ≠ .enqueued := by
  cases lit with
  | none => simp [skipGate, hh]
  | some t =>
    by_cases hc : rec.modTime < t ∧ d.chunkIds ≠ [] <;>
      simp [skipGate, hc, hh]

/-- C2: a create/modify event on a file whose stored document hash
equals the newly computed hash is skipped entirely — no embedder call,
no symbol write, and both stores and the recorded `lastIndexTime` are
left exactly as they were. -/
theorem C2_hash_skip_frame (st : SessionIndexState) (ev : FileEvent)
    (rec : FileRecord) (newChunks : List Chunk)
    (syms : List TraceSymbol) (refs : List Reference) (now : Int)
    (d : Document)
    (hev : ev.type = .create ∨ ev.type = .modify)
    (hdoc : getDocument st.store rec.path = some d)
    (hh : d.hash = rec.hash) :
    handleFileEvent st ev rec newChunks syms refs now = st ∧
    (handleFileEvent st ev rec newChunks syms refs now).embedCalls
        = st.embedCalls ∧
    (handleFileEvent st ev rec newChunks syms refs now).embedBatchCalls
        = st.embedBatchCalls ∧
    (handleFileEvent st ev rec newChunks syms refs now).store.documents
        = st.store.documents ∧
    (handleFileEvent st ev rec newChunks syms refs now).symbols
        = st.symbols ∧
    (handleFileEvent st ev rec newChunks syms refs now).lastIndexTime
        = st.lastIndexTime := by
  have hne := skipGate_hash_eq_not_enqueued st.lastIndexTime d rec hh
  have h1 : skipGate st.lastIndexTime (getDocument st.store rec.path) rec
        = .skippedByTime ∨
      skipGate st.lastIndexTime (getDocument st.store rec.path) rec
        = .skippedByHash := by
    rw [hdoc]
    cases hg : skipGate st.lastIndexTime (some d) rec
    · exact Or.inl rfl
    · exact Or.inr rfl
    · exact absurd hg hne
  have heq : handleFileEvent st ev rec newChunks syms refs now = st := by
    rcases hev with h | h <;> rcases h1 with h1 | h1 <;>
      (rw [handleFileEvent, h]; rw [h1])
  exact ⟨heq, by rw [heq], by rw [heq], by rw [heq], by rw [heq], by rw [heq]⟩

/-- Witness for C2 at a concrete input: a modify event on a file whose
stored document carries the same hash. -/
theorem C2_hash_skip_frame_witness :
    handleFileEvent
        ⟨⟨[], [⟨"main.go", "h1", 5, ["c1"]⟩]⟩, ⟨[]⟩, none, 0, 0⟩
        ⟨.modify, "main.go"⟩ ⟨"main.go", "h1", 7⟩ [] [] [] 99
      = ⟨⟨[], [⟨"main.go", "h1", 5, ["c1"]⟩]⟩, ⟨[]⟩, none, 0, 0⟩ :=
  (C2_hash_skip_frame
    ⟨⟨[], [⟨"main.go", "h1", 5, ["c1"]⟩]⟩, ⟨[]⟩, none, 0, 0⟩
    ⟨.modify, "main.go"⟩ ⟨"main.go", "h1", 7⟩ [] [] [] 99
    ⟨"main.go", "h1", 5, ["c1"]⟩ (Or.inr rfl) (by decide) rfl).1

/-- C3: after a delete event for path `p`, no trace of `p` remains:
`GetDocument p` is empty, `GetChunksForFile p` is empty, and
`IsFileIndexed p` is false. -/
theorem C3_delete_fidelity (st : SessionIndexState) (p : String)
    (rec : FileRecord) (newChunks : List Chunk)
    (syms : List TraceSymbol) (refs : List Reference) (now : Int) :
    getDocument (handleFileEvent st ⟨.delete, p⟩ rec newChunks syms refs now).store p
        = none ∧
    getChunksForFile (handleFileEvent st ⟨.delete, p⟩ rec newChunks syms refs now).store p
        = [] ∧
    isFileIndexed (handleFileEvent st ⟨.delete, p⟩ rec newChunks syms refs now).symbols p
        = false := by
  refine ⟨?_, ?_, ?_⟩
  · show (((st.store.documents).filter (fun d => d.path != p)).find?
      (fun d => d.path == p)) = none
    rw [List.find?_eq_none]
    intro d hd
    rw [List.mem_filter] at hd
    simpa using hd.2
  · show (((st.store.chunks).filter (fun c => c.filePath != p)).filter
      (fun c => c.filePath == p)) = []
    rw [List.filter_eq_nil_iff]
    intro c hc
    rw [List.mem_filter] at hc
    simpa using hc.2
  · show (((st.symbols.buckets).filter (fun b => b.path != p)).any
      (fun b => b.path == p)) = false
    rw [Bool.eq_false_iff]
    intro h
    rw [List.any_eq_true] at h
    obtain ⟨b, hb, hbp⟩ := h
    rw [List.mem_filter] at hb
    rw [beq_iff_eq] at hbp
    simp [hbp] at hb

/-- Witness for C3 at a concrete input: a delete event on a state that
holds a chunk, a document and a symbol bucket for the path. -/
theorem C3_delete_fidelity_witness :
    getDocument (handleFileEvent
        ⟨⟨[⟨"c1", "main.go", 1, 3, "x", [1], "h"⟩], [⟨"main.go", "h", 0, ["c1"]⟩]⟩,
          ⟨[⟨"main.go", "h", [⟨"sentinel", "function", "main.go", 1, "go"⟩], []⟩]⟩,
          none, 0, 0⟩
        ⟨.delete, "main.go"⟩ ⟨"main.go", "h", 0⟩ [] [] [] 0).store "main.go"
      = none ∧
    getChunksForFile (handleFileEvent
        ⟨⟨[⟨"c1", "main.go", 1, 3, "x", [1], "h"⟩], [⟨"main.go", "h", 0, ["c1"]⟩]⟩,
          ⟨[⟨"main.go", "h", [⟨"sentinel", "function", "main.go", 1, "go"⟩], []⟩]⟩,
          none, 0, 0⟩
        ⟨.delete, "main.go"⟩ ⟨"main.go", "h", 0⟩ [] [] [] 0).store "main.go"
      = [] ∧
    isFileIndexed (handleFileEvent
        ⟨⟨[⟨"c1", "main.go", 1, 3, "x", [1], "h"⟩], [⟨"main.go", "h", 0, ["c1"]⟩]⟩,
          ⟨[⟨"main.go", "h", [⟨"sentinel", "function", "main.go", 1, "go"⟩], []⟩]⟩,
          none, 0, 0⟩
        ⟨.delete, "main.go"⟩ ⟨"main.go", "h", 0⟩ [] [] [] 0).symbols "main.go"
      = false :=
  C3_delete_fidelity
    ⟨⟨[⟨"c1", "main.go", 1, 3, "x", [1], "h"⟩], [⟨"main.go", "h", 0, ["c1"]⟩]⟩,
      ⟨[⟨"main.go", "h", [⟨"sentinel", "function", "main.go", 1, "go"⟩], []⟩]⟩,
      none, 0, 0⟩
    "main.go" ⟨"main.go", "h", 0⟩ [] [] [] 0

/-! ## Semantic search with path filtering (spec sections 4.8, 4.10) -/

/-- Exact-arithmetic similarity score: the dot product of the query
vector and a chunk vector.  The source scores by cosine similarity over
normalized `float32` vectors; vectors here are taken pre-normalized
(scaled to integers), which preserves the induced ranking. -/
def dotScore (q v : List Int) : Int := (q.zipWith (fun a b => a * b) v).sum

/-- One search hit: a chunk and its score (`store.SearchResult`). -/
structure StoreSearchResult where
  chunk : Chunk
  score : Int
deriving DecidableEq, Repr

/-- Result ordering of the store: higher score first; ties break by
`(filePath ascending, startLine ascending)`. -/
def resultRank (a b : StoreSearchResult) : Prop :=
  b.score < a.score ∨
    (a.score = b.score ∧ (a.chunk.filePath < b.chunk.filePath ∨
      (a.chunk.filePath = b.chunk.filePath ∧
        a.chunk.startLine ≤ b.chunk.startLine)))

instance : DecidableRel resultRank := fun a b => by
  unfold resultRank
  infer_instance

/-- Modelled from the spec: `store.Search` (vector-store sources
absent).  The `pathPrefix` filter applies before limiting; survivors
are scored, sorted by descending score with the deterministic
tie-break, truncated to `limit`; an empty filtered set yields an empty
result, never an error. -/
def storeSearch (chunks : List Chunk) (q : List Int) (limit : Nat)
    (pathPfx : String) : Except String (List StoreSearchResult) :=
  .ok ((((chunks.filter
      (fun c => pathPfx.data.isPrefixOf c.filePath.data)).map
        (fun c => ⟨c, dotScore q c.vector⟩)).insertionSort resultRank).take limit)

/-- Modelled from the spec: `search.Searcher.Search` with boosts off and
hybrid weight zero — embed the query once, then the output equals the
store's raw top-`limit` (spec 4.10 guarantee). -/
def searcherSearch (embedQ : String → List Int) (chunks : List Chunk)
    (query : String) (limit : Nat) (pathPfx : String) :
    Except String (List StoreSearchResult) :=
  storeSearch chunks (embedQ query) limit pathPfx

/-- The mock embedder of the MCP path-filter tests, scaled to
integers: every text embeds to `(0.9, 0.1, 0.0)`. -/
def mockEmbed (_ : String) : List Int := [90, 10, 0]

/-- The four chunks of scenario S7 / `TestMCPSearchWithPathParameter`,
vectors scaled by 100. -/
def s7Chunks : List Chunk :=
  [⟨"1", "src/handlers/auth.go", 1, 10, "func HandleAuth() {}", [90, 10, 0], "hash1"⟩,
   ⟨"2", "src/models/user.go", 1, 15, "type User struct {}", [80, 20, 0], "hash2"⟩,
   ⟨"3", "api/v1/routes.go", 1, 20, "func SetupRoutes() {}", [85, 15, 0], "hash3"⟩,
   ⟨"4", "test/unit/auth_test.go", 1, 12, "func TestAuth() {}", [70, 30, 0], "hash4"⟩]

/-- C4: the path filter applies before the limit — every returned
result's path starts with the prefix; a prefix matching no chunk yields
an empty result and no error; and on the S7 store, searching with
`limit = 10` and prefix `src/` returns exactly the two `src/` chunks. -/
theorem C4_path_filter_search (chunks : List Chunk) (q : List Int)
    (limit : Nat) (pathPfx : String) :
    (∀ l, storeSearch chunks q limit pathPfx = .ok l →
      ∀ r ∈ l, pathPfx.data.isPrefixOf r.chunk.filePath.data = true) ∧
    ((∀ c ∈ chunks, pathPfx.data.isPrefixOf c.filePath.data = false) →
      storeSearch chunks q limit pathPfx = .ok []) ∧
    ((searcherSearch mockEmbed s7Chunks "test" 10 "src/").map
        (fun l => l.map (fun r => r.chunk.filePath))
      = .ok ["src/handlers/auth.go", "src/models/user.go"]) := by
  refine ⟨?_, ?_, by rfl⟩
  · intro l hl r hr
    rw [storeSearch, Except.ok.injEq] at hl
    subst hl
    have hr' := List.mem_of_mem_take hr
    rw [List.mem_insertionSort] at hr'
    obtain ⟨c, hc, rfl⟩ := List.mem_map.mp hr'
    exact (List.mem_filter.mp hc).2
  · intro hnone
    rw [storeSearch]
    have : chunks.filter (fun c => pathPfx.data.isPrefixOf c.filePath.data) = [] := by
      rw [List.filter_eq_nil_iff]
      intro c hc
      simp [hnone c hc]
    rw [this]
    simp [List.insertionSort]

/-- Witness for C4 at a concrete input: a prefix matching none of the
S7 chunks yields the empty result without error. -/
theorem C4_path_filter_search_witness :
    storeSearch s7Chunks [90, 10, 0] 10 "nonexistent/" = .ok [] :=
  (C4_path_filter_search s7Chunks [90, 10, 0] 10 "nonexistent/").2.1 (by decide)

/-! ## Multi-root watch supervisor (spec section 4.7) -/

/-- Session lifecycle states (spec 4.6 state machine). -/
inductive SessState where
  | starting
  | running
  | retrying
  | errored
  | stopping
  | stopped
  | removed
deriving DecidableEq, Repr

/-- Abstract behavior of one session's runner, as configured in the
supervisor tests: run steadily until cancelled; fail on the first
attempt and run steadily from the second; or reach `Running` and then
return an error. -/
inductive SessionBehavior where
  | steady
  | failOnce (msg : String)
  | failAfterRunning (msg : String)
deriving DecidableEq, Repr

/-- What a supervisor run produced: either it is still running, or it
returned with an optional error. -/
inductive SupOutcome where
  | stillRunning
  | returned (err : Option String)
deriving DecidableEq, Repr

/-- Result of a supervisor run: its outcome and the final observed
state of every session (main first, then linked in order). -/
structure SupervisorRun where
  outcome : SupOutcome
  finalStates : List (String × SessState)
deriving DecidableEq, Repr

/-- Steady-state of a linked session under the retry policy: a steady
or fail-once session ends up `Running`; a session that keeps failing
after `Running` stays in the `Retrying`/`Running` cycle. -/
def linkedFinalState : SessionBehavior → SessState
  | .steady => .running
  | .failOnce _ => .running
  | .failAfterRunning _ => .retrying

/-- Modelled from the spec: `runDynamicWatchSupervisor` (supervisor
source absent; behavior fixed by spec 4.7 and section 7).  The main
session's failure is fatal: it cancels every linked session and the
supervisor returns an error naming the root and the underlying cause.
Context cancellation is graceful: all sessions are cancelled,
wait-joined, and no error is surfaced.  Otherwise the supervisor keeps
running, linked failures being absorbed by the retry policy. -/
def runDynamicWatchSupervisor (mainRoot : String) (linked : List String)
    (behavior : String → SessionBehavior) (cancelled : Bool) : SupervisorRun :=
  match behavior mainRoot with
  | .failAfterRunning msg =>
    { outcome := .returned (some (("watch session " ++ mainRoot ++ " failed: ") ++ msg))
      finalStates := (mainRoot, .errored) :: linked.map (fun r => (r, .stopped)) }
  | _ =>
    if cancelled then
      { outcome := .returned none
        finalStates := (mainRoot, .stopped) :: linked.map (fun r => (r, .stopped)) }
    else
      { outcome := .stillRunning
        finalStates := (mainRoot, .running) ::
          linked.map (fun r => (r, linkedFinalState (behavior r))) }

/-- A substring-containment predicate on strings. -/
def strContains (s sub : String) : Prop := ∃ pre post, s = pre ++ sub ++ post

/-- C5: a main-session failure after `Running` is fatal to the
supervisor — every linked session is cancelled (observed `Stopped`) and
the supervisor's returned error message contains the main session's
failure message. -/
theorem C5_main_failure_fatal (mainRoot : String) (linked : List String)
    (behavior : String → SessionBehavior) (msg : String)
    (hmain : behavior mainRoot = .failAfterRunning msg)
    (hlinked : linked ≠ []) :
    (∃ e, (runDynamicWatchSupervisor mainRoot linked behavior false).outcome
        = .returned (some e) ∧ strContains e msg) ∧
    (∀ r ∈ linked,
      (r, .stopped) ∈
        (runDynamicWatchSupervisor mainRoot linked behavior false).finalStates) ∧
    linked ≠ [] := by
  refine ⟨⟨("watch session " ++ mainRoot ++ " failed: ") ++ msg, ?_, ?_⟩, ?_, hlinked⟩
  · rw [runDynamicWatchSupervisor, hmain]
  · exact ⟨"watch session " ++ mainRoot ++ " failed: ", "",
      by rw [String.append_empty]⟩
  · intro r hr
    rw [runDynamicWatchSupervisor, hmain]
    exact List.mem_cons_of_mem _
      (List.mem_map_of_mem (fun r => (r, SessState.stopped)) hr)

/-- Witness for C5 at a concrete input: the S6 scenario — the main
session fails with "main session failed" while one linked session is
present. -/
theorem C5_main_failure_fatal_witness :
    (∃ e, (runDynamicWatchSupervisor "/tmp/main" ["/tmp/wt-f"]
        (fun r => if r == "/tmp/main" then .failAfterRunning "main session failed"
          else .steady) false).outcome
        = .returned (some e) ∧ strContains e "main session failed") ∧
    (∀ r ∈ ["/tmp/wt-f"],
      (r, .stopped) ∈
        (runDynamicWatchSupervisor "/tmp/main" ["/tmp/wt-f"]
          (fun r => if r == "/tmp/main" then .failAfterRunning "main session failed"
            else .steady) false).finalStates) ∧
    (["/tmp/wt-f"] : List String) ≠ [] :=
  C5_main_failure_fatal "/tmp/main" ["/tmp/wt-f"]
    (fun r => if r == "/tmp/main" then .failAfterRunning "main session failed"
      else .steady)
    "main session failed" (by decide) (by decide)

/-- C6: cancelling the supervisor's context is always a graceful
shutdown — whatever the linked set and however often the run is
repeated, the supervisor returns no error and every session ends
`Stopped` (no orphan). -/
theorem C6_cancel_graceful (mainRoot : String) (linked : List String)
    (behavior : String → SessionBehavior) (iterations : Nat)
    (hmain : behavior mainRoot = .steady) :
    ∀ i < iterations,
      (runDynamicWatchSupervisor mainRoot linked behavior true).outcome
          = .returned none ∧
      ∀ pr ∈ (runDynamicWatchSupervisor mainRoot linked behavior true).finalStates,
        pr.2 = .stopped := by
  intro i _
  rw [runDynamicWatchSupervisor, hmain]
  refine ⟨rfl, ?_⟩
  intro pr hpr
  rcases List.mem_cons.mp hpr with h | h
  · rw [h]
  · obtain ⟨r, _, rfl⟩ := List.mem_map.mp h
    rfl

/-- Witness for C6 at a concrete input: the race-test configuration
(main plus one linked steady session), cancelled, iteration 0 of
120 — no error is returned and the linked session is stopped. -/
theorem C6_cancel_graceful_witness :
    0 < 120 ∧
    (runDynamicWatchSupervisor "/tmp/main" ["/tmp/wt-h"]
        (fun _ => SessionBehavior.steady) true).outcome = .returned none ∧
    ("/tmp/wt-h", SessState.stopped).2 = SessState.stopped :=
  ⟨by decide,
   (C6_cancel_graceful "/tmp/main" ["/tmp/wt-h"]
      (fun _ => SessionBehavior.steady) 120 rfl 0 (by decide)).1,
   (C6_cancel_graceful "/tmp/main" ["/tmp/wt-h"]
      (fun _ => SessionBehavior.steady) 120 rfl 0 (by decide)).2
     ("/tmp/wt-h", SessState.stopped) (by decide)⟩

/-- One observed lifecycle transition: session root, new state, and the
(abstract) time it was observed at. -/
structure LifecycleEvent where
  root : String
  state : SessState
  time : Nat
deriving DecidableEq, Repr

/-- Modelled from the spec: the lifecycle trace of one linked session
under the retry policy (spec 4.7: "on session failure, schedule a
restart after `backoff(attempt)`").  `outcomes` lists the per-attempt
results (`some msg` = failure, `none` = success after which the session
runs steadily); `t` is the current clock and `attempt` the 1-based
attempt counter.  A failing attempt emits `Starting`, `Error`,
`Retrying` and reschedules `backoff attempt` later; a succeeding
attempt emits `Starting`, `Running`. -/
def linkedSessionTrace (root : String) (backoff : Nat → Nat) :
    Nat → Nat → List (Option String) → List LifecycleEvent
  | _, _, [] => []
  | t, attempt, some _ :: rest =>
    ⟨root, .starting, t⟩ :: ⟨root, .errored, t⟩ :: ⟨root, .retrying, t⟩ ::
      linkedSessionTrace root backoff (t + backoff attempt) (attempt + 1) rest
  | t, _, none :: _ => [⟨root, .starting, t⟩, ⟨root, .running, t⟩]

/-- Modelled from the spec: the per-attempt outcomes a configured
session behavior produces — `failOnce` fails its first attempt and
succeeds on the second; the others succeed immediately (a
`failAfterRunning` session's post-`Running` failure is not an attempt
failure). -/
def behaviorOutcomes : SessionBehavior → List (Option String)
  | .steady => [none]
  | .failOnce msg => [some msg, none]
  | .failAfterRunning _ => [none]

/-- C7: a linked session failing on its first attempt and succeeding on
its second emits `Starting → Error → Retrying → Running` in that order,
the retry runs `backoff 1` after the error (so the delay is at least
`backoff 1`), the main session stays `Running`, and the failure never
terminates the supervisor. -/
theorem C7_linked_retry_backoff (mainRoot lroot : String)
    (behavior : String → SessionBehavior) (msg : String) (backoff : Nat → Nat)
    (hmain : behavior mainRoot = .steady)
    (hlinked : behavior lroot = .failOnce msg) :
    (List.Sublist [SessState.starting, .errored, .retrying, .running]
      ((linkedSessionTrace lroot backoff 0 1
          (behaviorOutcomes (behavior lroot))).map (fun e => e.state))) ∧
    (⟨lroot, .errored, 0⟩ ∈ linkedSessionTrace lroot backoff 0 1
        (behaviorOutcomes (behavior lroot)) ∧
      ⟨lroot, .running, backoff 1⟩ ∈ linkedSessionTrace lroot backoff 0 1
        (behaviorOutcomes (behavior lroot)) ∧
      backoff 1 ≥ 0 + backoff 1) ∧
    ((mainRoot, SessState.running) ∈
      (runDynamicWatchSupervisor mainRoot [lroot] behavior false).finalStates) ∧
    (runDynamicWatchSupervisor mainRoot [lroot] behavior false).outcome
        = .stillRunning := by
  rw [hlinked]
  refine ⟨?_, ⟨?_, ?_, by rw [Nat.zero_add]⟩, ?_, ?_⟩
  · show List.Sublist [SessState.starting, .errored, .retrying, .running]
      [SessState.starting, .errored, .retrying, .starting, .running]
    exact (List.cons_sublist_cons ..).mpr
      ((List.cons_sublist_cons ..).mpr ((List.cons_sublist_cons ..).mpr
        (List.sublist_cons_self _ _)))
  · show _ ∈ [(⟨lroot, .starting, 0⟩ : LifecycleEvent), ⟨lroot, .errored, 0⟩,
      ⟨lroot, .retrying, 0⟩, ⟨lroot, .starting, 0 + backoff 1⟩,
      ⟨lroot, .running, 0 + backoff 1⟩]
    simp
  · show _ ∈ [(⟨lroot, .starting, 0⟩ : LifecycleEvent), ⟨lroot, .errored, 0⟩,
      ⟨lroot, .retrying, 0⟩, ⟨lroot, .starting, 0 + backoff 1⟩,
      ⟨lroot, .running, 0 + backoff 1⟩]
    have : backoff 1 = 0 + backoff 1 := (Nat.zero_add _).symm
    rw [this]
    simp
  · rw [runDynamicWatchSupervisor, hmain]
    exact List.mem_cons_self _ _
  · rw [runDynamicWatchSupervisor, hmain]
    rfl

/-- Witness for C7 at a concrete input: the
`TestDynamicWatch_LinkedFailureIsIsolatedWithRetry` configuration —
main steady, one linked session failing once with "linked boom",
backoff `attempt * 20` ms. -/
theorem C7_linked_retry_backoff_witness :
    (List.Sublist [SessState.starting, .errored, .retrying, .running]
      ((linkedSessionTrace "/tmp/wt-e" (fun a => a * 20) 0 1
          (behaviorOutcomes ((fun r =>
            if r == "/tmp/main" then SessionBehavior.steady
            else .failOnce "linked boom") "/tmp/wt-e"))).map
        (fun e => e.state))) ∧
    (⟨"/tmp/wt-e", .errored, 0⟩ ∈ linkedSessionTrace "/tmp/wt-e"
        (fun a => a * 20) 0 1
        (behaviorOutcomes ((fun r =>
          if r == "/tmp/main" then SessionBehavior.steady
          else .failOnce "linked boom") "/tmp/wt-e")) ∧
      ⟨"/tmp/wt-e", .running, (fun a => a * 20) 1⟩ ∈ linkedSessionTrace
        "/tmp/wt-e" (fun a => a * 20) 0 1
        (behaviorOutcomes ((fun r =>
          if r == "/tmp/main" then SessionBehavior.steady
          else .failOnce "linked boom") "/tmp/wt-e")) ∧
      (fun a => a * 20) 1 ≥ 0 + (fun a => a * 20) 1) ∧
    (("/tmp/main", SessState.running) ∈
      (runDynamicWatchSupervisor "/tmp/main" ["/tmp/wt-e"]
        (fun r => if r == "/tmp/main" then SessionBehavior.steady
          else .failOnce "linked boom") false).finalStates) ∧
    (runDynamicWatchSupervisor "/tmp/main" ["/tmp/wt-e"]
        (fun r => if r == "/tmp/main" then SessionBehavior.steady
          else .failOnce "linked boom") false).outcome = .stillRunning :=
  C7_linked_retry_backoff "/tmp/main" "/tmp/wt-e"
    (fun r => if r == "/tmp/main" then SessionBehavior.steady
      else .failOnce "linked boom")
    "linked boom" (fun a => a * 20) (by decide) (by decide)

/-! ## Call-graph queries over workspace stores (spec sections 4.9-4.10) -/

/-- The loaded contents of one project's symbol store: its symbols and
references (`trace.GOBSymbolStore` data). -/
structure SymbolStoreData where
  symbols : List TraceSymbol
  references : List Reference
deriving DecidableEq, Repr

/-- Modelled from the spec: `LookupCallers` of the symbol store (source
absent) — the references whose callee name matches. -/
def lookupCallers (s : SymbolStoreData) (name : String) : List Reference :=
  s.references.filter (fun r => r.symbolName == name)

/-- One caller reported by `TraceCallers`: the caller's name and the
call-site location. -/
structure CallerEntry where
  callerName : String
  callSiteFile : String
  callSiteLine : Nat
deriving DecidableEq, Repr

/-- Modelled from the spec: `handleTraceCallersFromStores` (source
absent) — iterate all loaded stores in their given (project-ordered)
sequence and merge each store's matching references, in store order
then original insertion order, into caller entries carrying the caller
name and the call-site `file:line` recorded in that store. -/
def traceCallersFromStores (stores : List SymbolStoreData) (name : String) :
    List CallerEntry :=
  stores.flatMap (fun s =>
    (lookupCallers s name).map (fun r => ⟨r.callerName, r.file, r.line⟩))

/-- Store A of scenario S4: a reference whose callee is `Login`, called
by `HandleAuth` at `auth/handler.go:25`. -/
def s4StoreA : SymbolStoreData :=
  { symbols := [⟨"Login", "function", "auth/login.go", 10, "go"⟩]
    references := [⟨"Login", "auth/handler.go", 25, "HandleAuth", "auth/handler.go", 20⟩] }

/-- Store B of scenario S4: a reference whose callee is `Login`, called
by `ProcessRequest` at `api/request.go:15`. -/
def s4StoreB : SymbolStoreData :=
  { symbols := [⟨"Login", "function", "api/login.go", 5, "go"⟩]
    references := [⟨"Login", "api/request.go", 15, "ProcessRequest", "api/request.go", 12⟩] }

/-- C8: `TraceCallers` over several loaded symbol stores aggregates all
of them — an entry appears exactly when some store holds a matching
reference (with that store's recorded caller and call site), the result
has exactly one entry per matching reference, and on the S4 stores
`TraceCallers "Login"` returns exactly `HandleAuth` at
`auth/handler.go:25` then `ProcessRequest` at `api/request.go:15`. -/
theorem C8_trace_callers_aggregation (stores : List SymbolStoreData)
    (name : String) (e : CallerEntry) :
    (e ∈ traceCallersFromStores stores name ↔
      ∃ s ∈ stores, ∃ r ∈ s.references, r.symbolName = name ∧
        e = ⟨r.callerName, r.file, r.line⟩) ∧
    (traceCallersFromStores stores name).length
        = (stores.map (fun s => (lookupCallers s name).length)).sum ∧
    traceCallersFromStores [s4StoreA, s4StoreB] "Login"
        = [⟨"HandleAuth", "auth/handler.go", 25⟩,
           ⟨"ProcessRequest", "api/request.go", 15⟩] := by
  refine ⟨?_, ?_, by rfl⟩
  · rw [traceCallersFromStores, List.mem_flatMap]
    constructor
    · rintro ⟨s, hs, he⟩
      obtain ⟨r, hr, rfl⟩ := List.mem_map.mp he
      rw [lookupCallers, List.mem_filter, beq_iff_eq] at hr
      exact ⟨s, hs, r, hr.1, hr.2, rfl⟩
    · rintro ⟨s, hs, r, hr, hname, rfl⟩
      refine ⟨s, hs, List.mem_map_of_mem _ ?_⟩
      rw [lookupCallers, List.mem_filter, beq_iff_eq]
      exact ⟨hr, hname⟩
  · induction stores with
    | nil => rfl
    | cons s rest ih =>
      rw [traceCallersFromStores, List.flatMap_cons, List.length_append,
        List.length_map, List.map_cons, List.sum_cons]
      rw [traceCallersFromStores] at ih
      rw [ih]

/-! ## Local snapshot persistence (`rpg.GOBRPGStore.Persist`) -/

/-- File-system operations a persistence routine can issue against the
snapshot path. -/
inductive FSOp where
  | create
  | writeAll (data : String)
  | writeTemp (data : String)
  | renameTempInto
deriving DecidableEq, Repr

/-- On-disk state around one snapshot path: the target file's content
(`none` = absent) and a sibling temp file's content. -/
structure DiskState where
  target : Option String
  temp : Option String
deriving DecidableEq, Repr

/-- Effect of one operation: `create` (Go `os.Create`) truncates the
target to empty; `writeAll` completes an in-place write; `writeTemp`
fills the temp file leaving the target untouched; `renameTempInto`
atomically replaces the target with the temp file. -/
def applyFSOp (d : DiskState) : FSOp → DiskState
  | .create => { d with target := some "" }
  | .writeAll data => { d with target := some data }
  | .writeTemp data => { d with temp := some data }
  | .renameTempInto => { target := d.temp, temp := none }

/-- Every on-disk state observable while a sequence of operations runs
(including the initial and final states); an operation sequence that
fails after its k-th step leaves the disk in the k-th state. -/
def fsStates (init : DiskState) : List FSOp → List DiskState
  | [] => [init]
  | op :: rest => init :: fsStates (applyFSOp init op) rest

/-- The operation sequence of `GOBRPGStore.Persist` (source
`part_007`): after ensuring the parent directory it opens the index
path with `os.Create` — truncating any previous snapshot in place —
and then gob-encodes the snapshot directly into that file.  No
temporary file is written and no rename is performed. -/
def gobRPGPersistOps (encoded : String) : List FSOp :=
  [.create, .writeAll encoded]

/-- Counterexample to C9 at a concrete input: persisting a new snapshot
"v2" over a previous snapshot "v1", it is false that the persist is a
temp-file-and-rename whose on-disk snapshot is at every moment either
the previous or the new complete snapshot — mid-persist the file is
truncated to empty. -/
theorem C9_persist_counterexample :
    ¬ ((gobRPGPersistOps "v2").any
        (fun op => op == FSOp.renameTempInto) = true ∧
      ∀ st ∈ fsStates ⟨some "v1", none⟩ (gobRPGPersistOps "v2"),
        st.target = some "v1" ∨ st.target = some "v2") := by
  decide

/-- C9 (amended): `GOBRPGStore.Persist` writes the snapshot in place —
its operations are only a truncating `create` and a direct write, never
a temp write or rename; immediately after the `create` step the
on-disk file is empty, so a persist failing between truncation and the
completed encode leaves a state that is neither the previous snapshot
nor the new one (the previous snapshot is destroyed); only a persist
that runs to completion leaves the new complete snapshot. -/
theorem C9_persist_truncates_in_place (prev : Option String)
    (encoded : String) (hprev : prev ≠ some "") (henc : encoded ≠ "") :
    (∀ op ∈ gobRPGPersistOps encoded,
      op = .create ∨ ∃ d, op = .writeAll d) ∧
    ((fsStates ⟨prev, none⟩ (gobRPGPersistOps encoded)).get? 1
        = some ⟨some "", none⟩) ∧
    (∃ st ∈ fsStates ⟨prev, none⟩ (gobRPGPersistOps encoded),
      st.target ≠ prev ∧ st.target ≠ some encoded) ∧
    ((fsStates ⟨prev, none⟩ (gobRPGPersistOps encoded)).getLast?
        = some ⟨some encoded, none⟩) := by
  refine ⟨?_, rfl, ⟨⟨some "", none⟩, ?_, ?_, ?_⟩, rfl⟩
  · intro op hop
    rcases List.mem_cons.mp hop with h | h
    · exact Or.inl h
    · rcases List.mem_cons.mp h with h | h
      · exact Or.inr ⟨encoded, h⟩
      · exact absurd h (List.not_mem_nil _)
  · show _ ∈ [(⟨prev, none⟩ : DiskState), ⟨some "", none⟩, ⟨some encoded, none⟩]
    exact List.mem_cons_of_mem _ (List.mem_cons_self _ _)
  · exact fun h => hprev (h ▸ rfl)
  · intro h
    exact henc (Option.some.inj h).symm

/-- Witness for the amended C9 at a concrete input: previous snapshot
"v1", new snapshot "v2". -/
theorem C9_persist_truncates_in_place_witness :
    (∀ op ∈ gobRPGPersistOps "v2",
      op = .create ∨ ∃ d, op = .writeAll d) ∧
    ((fsStates ⟨some "v1", none⟩ (gobRPGPersistOps "v2")).get? 1
        = some ⟨some "", none⟩) ∧
    (∃ st ∈ fsStates ⟨some "v1", none⟩ (gobRPGPersistOps "v2"),
      st.target ≠ some "v1" ∧ st.target ≠ some "v2") ∧
    ((fsStates ⟨some "v1", none⟩ (gobRPGPersistOps "v2")).getLast?
        = some ⟨some "v2", none⟩) :=
  C9_persist_truncates_in_place (some "v1") "v2" (by decide) (by decide)

/-! ## Workspace symbol-store loading (`trace.LoadWorkspaceSymbolStores`) -/

/-- A workspace project entry (`config.ProjectEntry`). -/
structure ProjectEntry where
  name : String
  path : String
deriving DecidableEq, Repr

/-- A configured workspace (`config.Workspace`): its name and its
ordered project list. -/
structure Workspace where
  name : String
  projects : List ProjectEntry
deriving DecidableEq, Repr

/-- Modelled from the spec: `config.GetSymbolIndexPath` (config package
absent) — the per-project symbol snapshot lives at
`<root>/.grepai/symbols.gob`. -/
def symbolIndexPath (root : String) : String :=
  root ++ "/.grepai/symbols.gob"

/-- Store lifecycle events the loader emits: a store whose `Load`
was attempted (opening the snapshot), and a store that was closed. -/
inductive StoreEvent where
  | opened (path : String)
  | closed (path : String)
deriving DecidableEq, Repr

/-- The paths of all opened-store events, in order. -/
def openedPaths (evs : List StoreEvent) : List String :=
  evs.filterMap (fun e => match e with | .opened p => some p | _ => none)

/-- The paths of all closed-store events, in order. -/
def closedPaths (evs : List StoreEvent) : List String :=
  evs.filterMap (fun e => match e with | .closed p => some p | _ => none)

/-- Embedded from the source (`trace/workspace.go` loop): for each
selected project construct its GOB symbol store and `Load` it; on a
load failure, close the failing store, close every store loaded so far
(`CloseSymbolStores`), and return the error; on success append to the
result.  `loadOk` abstracts whether `Load` succeeds for a store path;
`acc` holds the paths of the stores loaded so far, in order. -/
def loadStoresLoop (loadOk : String → Bool) :
    List ProjectEntry → List String →
    Except String (List String) × List StoreEvent
  | [], acc => (.ok acc, [])
  | p :: rest, acc =>
    let sp := symbolIndexPath p.path
    if loadOk sp then
      let r := loadStoresLoop loadOk rest (acc ++ [sp])
      (r.1, .opened sp :: r.2)
    else
      (.error ("failed to load symbol index for project " ++ p.name),
        .opened sp :: .closed sp :: acc.map .closed)

/-- Embedded from the source (`trace.LoadWorkspaceSymbolStores`): load
the workspace config (`none` = no config), look the workspace up by
name, select either the single named project (error if absent, before
any store is touched) or all projects in list order, and run the load
loop. -/
def loadWorkspaceSymbolStores (wsCfg : Option (List Workspace))
    (workspaceName projectName : String) (loadOk : String → Bool) :
    Except String (List String) × List StoreEvent :=
  match wsCfg with
  | none => (.error "no workspaces configured", [])
  | some workspaces =>
    match workspaces.find? (fun w => w.name == workspaceName) with
    | none => (.error ("workspace " ++ workspaceName ++ " not found"), [])
    | some ws =>
      if projectName == "" then
        loadStoresLoop loadOk ws.projects []
      else
        match ws.projects.find? (fun p => p.name == projectName) with
        | some p => loadStoresLoop loadOk [p] []
        | none =>
          (.error ("project " ++ projectName ++ " not found in workspace "
            ++ workspaceName), [])

/-- When every selected project's store loads successfully, the loop
returns the accumulated paths followed by one store path per project in
list order, and only emits `opened` events. -/
theorem loadStoresLoop_all_ok (loadOk : String → Bool)
    (projects : List ProjectEntry) (acc : List String)
    (hall : ∀ p ∈ projects, loadOk (symbolIndexPath p.path) = true) :
    loadStoresLoop loadOk projects acc
      = (.ok (acc ++ projects.map (fun p => symbolIndexPath p.path)),
         projects.map (fun p => .opened (symbolIndexPath p.path))) := by
  induction projects generalizing acc with
  | nil => simp [loadStoresLoop]
  | cons p rest ih =>
    have hp := hall p (List.mem_cons_self p rest)
    have hrest : ∀ q ∈ rest, loadOk (symbolIndexPath q.path) = true :=
      fun q hq => hall q (List.mem_cons_of_mem p hq)
    rw [loadStoresLoop]
    simp only [hp, if_pos rfl, ih (acc ++ [symbolIndexPath p.path]) hrest]
    simp [List.append_assoc]

/-- When the loop fails, every store it opened has been closed: the
closed-store paths are a permutation of the accumulated (previously
loaded) paths together with all paths opened during this loop. -/
theorem loadStoresLoop_error_closes (loadOk : String → Bool)
    (projects : List ProjectEntry) (acc : List String) (e : String)
    (herr : (loadStoresLoop loadOk projects acc).1 = .error e) :
    List.Perm (closedPaths (loadStoresLoop loadOk projects acc).2)
      (acc ++ openedPaths (loadStoresLoop loadOk projects acc).2) := by
  induction projects generalizing acc with
  | nil => simp [loadStoresLoop] at herr
  | cons p rest ih =>
    rw [loadStoresLoop] at herr ⊢
    by_cases hp : loadOk (symbolIndexPath p.path) = true
    · rw [if_pos hp] at herr ⊢
      have hrec := ih (acc ++ [symbolIndexPath p.path]) herr
      simp only [closedPaths, openedPaths, List.filterMap_cons] at hrec ⊢
      rw [List.append_cons]
      simpa using hrec
    · rw [if_neg hp] at herr ⊢
      simp only [closedPaths, openedPaths, List.filterMap_cons,
        List.filterMap_map]
      have hmap2 : List.filterMap
          ((fun ev => match ev with
            | StoreEvent.opened q => some q
            | _ => none) ∘ StoreEvent.closed) acc = [] := by
        rw [List.filterMap_eq_nil_iff]
        intro a ha
        rfl
      rw [hmap2]
      have hmap1 : List.filterMap
          ((fun ev => match ev with
            | StoreEvent.closed q => some q
            | _ => none) ∘ StoreEvent.closed) acc = acc :=
        List.filterMap_some acc
      rw [hmap1]
      exact (List.perm_append_singleton _ _).symm

/-- C10: `LoadWorkspaceSymbolStores` is all-or-nothing over the
selected projects — if any load fails, every opened store (the failing
one included) is closed before the error returns, so no open store
leaks; on success it returns exactly one loaded store per selected
project in the workspace's project-list order; and a requested project
name that is not in the workspace yields an error before any store is
opened. -/
theorem C10_load_workspace_stores_all_or_nothing
    (wsCfg : Option (List Workspace)) (workspaceName projectName : String)
    (loadOk : String → Bool) :
    (∀ e, (loadWorkspaceSymbolStores wsCfg workspaceName projectName loadOk).1
        = .error e →
      List.Perm
        (closedPaths
          (loadWorkspaceSymbolStores wsCfg workspaceName projectName loadOk).2)
        (openedPaths
          (loadWorkspaceSymbolStores wsCfg workspaceName projectName loadOk).2)) ∧
    (∀ workspaces ws, wsCfg = some workspaces →
      workspaces.find? (fun w => w.name == workspaceName) = some ws →
      projectName = "" →
      (∀ p ∈ ws.projects, loadOk (symbolIndexPath p.path) = true) →
      (loadWorkspaceSymbolStores wsCfg workspaceName projectName loadOk).1
        = .ok (ws.projects.map (fun p => symbolIndexPath p.path))) ∧
    (∀ workspaces ws, wsCfg = some workspaces →
      workspaces.find? (fun w => w.name == workspaceName) = some ws →
      projectName ≠ "" →
      ws.projects.find? (fun p => p.name == projectName) = none →
      (∃ e, (loadWorkspaceSymbolStores wsCfg workspaceName projectName loadOk).1
          = .error e) ∧
      (loadWorkspaceSymbolStores wsCfg workspaceName projectName loadOk).2
          = []) := by
  refine ⟨?_, ?_, ?_⟩
  · intro e herr
    cases wsCfg with
    | none => simp [loadWorkspaceSymbolStores, closedPaths, openedPaths]
    | some workspaces =>
      rw [loadWorkspaceSymbolStores] at herr ⊢
      cases hfind : workspaces.find? (fun w => w.name == workspaceName) with
      | none => simp [hfind, closedPaths, openedPaths]
      | some ws =>
        simp only [hfind] at herr ⊢
        by_cases hpn : (projectName == "") = true
        · rw [if_pos hpn] at herr ⊢
          simpa using loadStoresLoop_error_closes loadOk ws.projects [] e herr
        · rw [if_neg hpn] at herr ⊢
          cases hp : ws.projects.find? (fun p => p.name == projectName) with
          | some p =>
            simp only [hp] at herr ⊢
            simpa using loadStoresLoop_error_closes loadOk [p] [] e herr
          | none =>
            simp only [hp] at herr ⊢
            simp [closedPaths, openedPaths]
  · intro workspaces ws hcfg hfind hpn hall
    subst hcfg
    rw [loadWorkspaceSymbolStores]
    simp only [hfind]
    rw [if_pos (by rw [hpn]; rfl)]
    rw [loadStoresLoop_all_ok loadOk ws.projects [] hall]
    simp
  · intro workspaces ws hcfg hfind hpn hproj
    subst hcfg
    rw [loadWorkspaceSymbolStores]
    simp only [hfind]
    rw [if_neg (by simpa using hpn)]
    simp only [hproj]
    exact ⟨⟨_, rfl⟩, by trivial⟩

/-- Witness for C10 at concrete inputs: a failing second project closes
both stores; the two-project success case of
`TestLoadWorkspaceSymbolStores_should_load_stores_for_all_projects`
returns one store per project in order; a missing project name opens
nothing. -/
theorem C10_load_workspace_stores_witness :
    List.Perm
      (closedPaths (loadWorkspaceSymbolStores
        (some [⟨"test-ws", [⟨"proj-a", "/a"⟩, ⟨"proj-b", "/b"⟩]⟩])
        "test-ws" "" (fun sp => sp == "/a/.grepai/symbols.gob")).2)
      (openedPaths (loadWorkspaceSymbolStores
        (some [⟨"test-ws", [⟨"proj-a", "/a"⟩, ⟨"proj-b", "/b"⟩]⟩])
        "test-ws" "" (fun sp => sp == "/a/.grepai/symbols.gob")).2) ∧
    (loadWorkspaceSymbolStores
        (some [⟨"test-ws", [⟨"proj-a", "/a"⟩, ⟨"proj-b", "/b"⟩]⟩])
        "test-ws" "" (fun _ => true)).1
      = .ok ["/a/.grepai/symbols.gob", "/b/.grepai/symbols.gob"] ∧
    ((∃ e, (loadWorkspaceSymbolStores
        (some [⟨"test-ws", [⟨"proj-a", "/a"⟩, ⟨"proj-b", "/b"⟩]⟩])
        "test-ws" "nonexistent-project" (fun _ => true)).1 = .error e) ∧
      (loadWorkspaceSymbolStores
        (some [⟨"test-ws", [⟨"proj-a", "/a"⟩, ⟨"proj-b", "/b"⟩]⟩])
        "test-ws" "nonexistent-project" (fun _ => true)).2 = []) :=
  ⟨(C10_load_workspace_stores_all_or_nothing
      (some [⟨"test-ws", [⟨"proj-a", "/a"⟩, ⟨"proj-b", "/b"⟩]⟩])
      "test-ws" "" (fun sp => sp == "/a/.grepai/symbols.gob")).1
      "failed to load symbol index for project proj-b" (by rfl),
   (C10_load_workspace_stores_all_or_nothing
      (some [⟨"test-ws", [⟨"proj-a", "/a"⟩, ⟨"proj-b", "/b"⟩]⟩])
      "test-ws" "" (fun _ => true)).2.1
      [⟨"test-ws", [⟨"proj-a", "/a"⟩, ⟨"proj-b", "/b"⟩]⟩]
      ⟨"test-ws", [⟨"proj-a", "/a"⟩, ⟨"proj-b", "/b"⟩]⟩
      rfl (by decide) rfl (by decide),
   (C10_load_workspace_stores_all_or_nothing
      (some [⟨"test-ws", [⟨"proj-a", "/a"⟩, ⟨"proj-b", "/b"⟩]⟩])
      "test-ws" "nonexistent-project" (fun _ => true)).2.2
      [⟨"test-ws", [⟨"proj-a", "/a"⟩, ⟨"proj-b", "/b"⟩]⟩]
      ⟨"test-ws", [⟨"proj-a", "/a"⟩, ⟨"proj-b", "/b"⟩]⟩
      rfl (by decide) (by decide) (by decide)⟩
